import Mathlib

/-!
Verification of the rapidtide lag-estimation / refinement / delay-correction
engine (shallow embedding of `rapidtide/workflows/rapidtide.py` and
`rapidtide/refinedelay.py`).

Real values are modelled by `ℚ`.  Per-voxel maps are modelled by `List ℚ`
(flattened spatial domain) or by `List (List (List ℚ))` (a 3-D volume).
Fallible configuration checks are modelled with `Except String`.
-/

namespace Rapidtide

/-- Modelled from the spec: `mse` (imported in `rapidtide.py` from
`rapidtide.tests.utils`, not part of the sources here) is the mean squared
error between two timecourses: "Compute convergence metric = mean squared
error between the new candidate ... and the previous pass's candidate." -/
def mse (a b : List ℚ) : ℚ :=
  (List.zipWith (fun x y => (x - y) ^ 2) a b).sum / a.length

/-- Stop reasons recorded by the pass loop (`refinestopreason` in
`rapidtide_main`). -/
inductive StopReason where
  | passesreached
  | maxpassesreached
  | convergence
  | emptymask
  deriving DecidableEq, Repr

/-- The convergence decision taken at the end of a pass whose regressor
combination processed at least one voxel (rapidtide.py lines 2803-2818).
Returns `some reason` when `stoprefining` is set to `True`, `none` when the
loop continues. -/
def convergenceDecision (convergencethresh : Option ℚ) (maxpasses passes thepass : ℕ)
    (regressormse : ℚ) : Option StopReason :=
  match convergencethresh with
  | some t =>
    if maxpasses ≤ thepass then some .maxpassesreached
    else if regressormse < t then some .convergence
    else none
  | none =>
    if passes ≤ thepass then some .passesreached
    else none

/-- The effective pass budget: `maxpasses` when a convergence threshold is
configured, otherwise `passes`. -/
def passBudget (convergencethresh : Option ℚ) (maxpasses passes : ℕ) : ℕ :=
  match convergencethresh with
  | some _ => maxpasses
  | none => passes

/-- The stopping condition of the refinement loop, as the spec states it:
the metric fell below the configured threshold, or the pass budget is
exhausted. -/
def firesAt (convergencethresh : Option ℚ) (maxpasses passes thepass : ℕ)
    (regressormse : ℚ) : Prop :=
  passBudget convergencethresh maxpasses passes ≤ thepass ∨
    ∃ t, convergencethresh = some t ∧ regressormse < t

instance (convergencethresh : Option ℚ) (maxpasses passes thepass : ℕ) (m : ℚ) :
    Decidable (firesAt convergencethresh maxpasses passes thepass m) := by
  unfold firesAt
  cases convergencethresh with
  | none => simp; infer_instance
  | some t => simp; infer_instance

theorem convergenceDecision_isSome_iff (convergencethresh : Option ℚ)
    (maxpasses passes thepass : ℕ) (m : ℚ) :
    (convergenceDecision convergencethresh maxpasses passes thepass m).isSome ↔
      firesAt convergencethresh maxpasses passes thepass m := by
  cases convergencethresh with
  | none =>
    simp only [convergenceDecision, firesAt, passBudget]
    split <;> simp_all
  | some t =>
    simp only [convergenceDecision, firesAt, passBudget]
    split
    · simp_all
    · split <;> simp_all

/-- The refinement pass loop (rapidtide.py lines 1833-2906, restricted to the
regressor-refinement bookkeeping).  `cand pass` is the normalized candidate
regressor produced by pass number `pass`, resampled to the native time grid
(`normoutputdata`); `prev` is `previousnormoutputdata`.  Each executed pass
computes `regressormse = mse new prev` and takes the convergence decision;
the loop stops at the first pass whose decision is `some reason`, or when the
iteration budget `fuel` (the `numpasses` loop bound) is exhausted.
Returns (final pass number, recorded stop reason, mse trace). -/
def refineLoop (convergencethresh : Option ℚ) (maxpasses passes : ℕ)
    (cand : ℕ → List ℚ) : (thepass : ℕ) → (fuel : ℕ) → (prev : List ℚ) →
    ℕ × StopReason × List ℚ
  | thepass, 0, _ => (thepass - 1, .passesreached, [])
  | thepass, fuel + 1, prev =>
    match convergenceDecision convergencethresh maxpasses passes thepass
        (mse (cand thepass) prev) with
    | some reason => (thepass, reason, [mse (cand thepass) prev])
    | none =>
      let rest := refineLoop convergencethresh maxpasses passes cand (thepass + 1) fuel
        (cand thepass)
      (rest.1, rest.2.1, mse (cand thepass) prev :: rest.2.2)

/-- The convergence metric computed at pass `q` of the loop: the mean squared
error between the candidate produced at pass `q` and the one produced at pass
`q - 1` (pass 0 standing for the initial probe regressor). -/
def mseAt (cand : ℕ → List ℚ) (q : ℕ) : ℚ := mse (cand q) (cand (q - 1))

/-- The loop bound `numpasses` (rapidtide.py lines 1821-1824). -/
def numpasses (convergencethresh : Option ℚ) (maxpasses passes : ℕ) : ℕ :=
  match convergencethresh with
  | some _ => max passes maxpasses
  | none => passes

theorem refineLoop_spec (th : Option ℚ) (maxp passes : ℕ) (cand : ℕ → List ℚ) :
    ∀ fuel s, 1 ≤ s → s ≤ passBudget th maxp passes →
      passBudget th maxp passes < s + fuel →
      (∀ q, s ≤ q → q < (refineLoop th maxp passes cand s fuel (cand (s - 1))).1 →
          ¬ firesAt th maxp passes q (mseAt cand q)) ∧
      firesAt th maxp passes (refineLoop th maxp passes cand s fuel (cand (s - 1))).1
        (mseAt cand (refineLoop th maxp passes cand s fuel (cand (s - 1))).1) ∧
      convergenceDecision th maxp passes
          (refineLoop th maxp passes cand s fuel (cand (s - 1))).1
          (mseAt cand (refineLoop th maxp passes cand s fuel (cand (s - 1))).1) =
        some (refineLoop th maxp passes cand s fuel (cand (s - 1))).2.1 ∧
      s ≤ (refineLoop th maxp passes cand s fuel (cand (s - 1))).1 ∧
      (refineLoop th maxp passes cand s fuel (cand (s - 1))).2.2 =
        (List.range' s ((refineLoop th maxp passes cand s fuel (cand (s - 1))).1 - s + 1)).map
          (mseAt cand) := by
  intro fuel
  induction fuel with
  | zero => intro s h1 h2 h3; omega
  | succ fuel ih =>
    intro s h1 h2 h3
    cases hdec : convergenceDecision th maxp passes s (mse (cand s) (cand (s - 1))) with
    | some reason =>
      have hout : refineLoop th maxp passes cand s (fuel + 1) (cand (s - 1)) =
          (s, reason, [mse (cand s) (cand (s - 1))]) := by
        simp only [refineLoop, hdec]
      rw [hout]
      have hfire : firesAt th maxp passes s (mseAt cand s) := by
        rw [← convergenceDecision_isSome_iff]
        simp [mseAt, hdec]
      refine ⟨fun q hq hq2 => absurd (lt_of_le_of_lt hq hq2) (lt_irrefl s), hfire, ?_, le_refl s, ?_⟩
      · simpa [mseAt] using hdec
      · simp [List.range', mseAt]
    | none =>
      have hnofire : ¬ firesAt th maxp passes s (mseAt cand s) := by
        rw [← convergenceDecision_isSome_iff]
        simp [mseAt, hdec]
      have hlt : s < passBudget th maxp passes := by
        by_contra hc
        exact hnofire (Or.inl (le_of_not_lt hc))
      have hrec := ih (s + 1) (by omega) (by omega) (by omega)
      have hsimp : cand (s + 1 - 1) = cand s := by norm_num
      rw [hsimp] at hrec
      have hout : refineLoop th maxp passes cand s (fuel + 1) (cand (s - 1)) =
          ((refineLoop th maxp passes cand (s + 1) fuel (cand s)).1,
           (refineLoop th maxp passes cand (s + 1) fuel (cand s)).2.1,
           mse (cand s) (cand (s - 1)) ::
             (refineLoop th maxp passes cand (s + 1) fuel (cand s)).2.2) := by
        simp only [refineLoop, hdec]
      rw [hout]
      obtain ⟨hr1, hr2, hr3, hr4, hr5⟩ := hrec
      refine ⟨fun q hq hq2 => ?_, hr2, hr3, by omega, ?_⟩
      · rcases eq_or_lt_of_le hq with heq | hlt2
        · rw [← heq]; exact hnofire
        · exact hr1 q hlt2 hq2
      · have hn : (refineLoop th maxp passes cand (s + 1) fuel (cand s)).1 - s + 1 =
            ((refineLoop th maxp passes cand (s + 1) fuel (cand s)).1 - (s + 1) + 1) + 1 := by
          omega
        rw [hn, List.range'_succ, List.map_cons, hr5]
        simp [mseAt]

theorem mse_self (a : List ℚ) : mse a a = 0 := by
  unfold mse
  have h : List.zipWith (fun x y => (x - y) ^ 2) a a = List.map (fun _ => (0 : ℚ)) a := by
    induction a with
    | nil => rfl
    | cons x xs ih => simp [List.zipWith, ih]
  rw [h]
  simp

theorem passBudget_le_numpasses (th : Option ℚ) (maxp passes : ℕ) :
    passBudget th maxp passes ≤ numpasses th maxp passes := by
  cases th <;> simp [passBudget, numpasses]

/-- **C1.**  In every pass of the refinement loop whose regressor combination
processed at least one voxel, the convergence metric is the mean squared error
between the newly produced normalized candidate regressor (at the native time
grid) and the previous pass's; this metric is exactly zero when the two are
equal; and the loop stops at the first pass where the metric falls below the
configured convergence threshold or the pass budget (`maxpasses` when a
convergence threshold is configured, otherwise `passes`) is exhausted. -/
theorem regressor_refinement_convergence (th : Option ℚ) (maxp passes : ℕ)
    (cand : ℕ → List ℚ) (hbudget : 1 ≤ passBudget th maxp passes) :
    (∀ a, mse a a = 0) ∧
    (refineLoop th maxp passes cand 1 (numpasses th maxp passes) (cand 0)).2.2 =
      (List.range' 1 (refineLoop th maxp passes cand 1 (numpasses th maxp passes) (cand 0)).1).map
        (mseAt cand) ∧
    (∀ q, 1 ≤ q → q < (refineLoop th maxp passes cand 1 (numpasses th maxp passes) (cand 0)).1 →
        ¬ firesAt th maxp passes q (mseAt cand q)) ∧
    firesAt th maxp passes
      (refineLoop th maxp passes cand 1 (numpasses th maxp passes) (cand 0)).1
      (mseAt cand (refineLoop th maxp passes cand 1 (numpasses th maxp passes) (cand 0)).1) ∧
    (refineLoop th maxp passes cand 1 (numpasses th maxp passes) (cand 0)).1 ≤
      passBudget th maxp passes := by
  have hfuel : passBudget th maxp passes < 1 + numpasses th maxp passes := by
    have := passBudget_le_numpasses th maxp passes
    omega
  have hcand : cand 0 = cand (1 - 1) := by norm_num
  rw [hcand]
  obtain ⟨h1, h2, h3, h4, h5⟩ :=
    refineLoop_spec th maxp passes cand (numpasses th maxp passes) 1 (le_refl 1) hbudget hfuel
  have hle : (refineLoop th maxp passes cand 1 (numpasses th maxp passes) (cand (1 - 1))).1 ≤
      passBudget th maxp passes := by
    by_contra hc
    push_neg at hc
    exact h1 (passBudget th maxp passes) hbudget hc (Or.inl (le_refl _))
  refine ⟨mse_self, ?_, h1, h2, hle⟩
  rw [h5, Nat.sub_add_cancel h4]

/-- A closed instance of C1's hypothesis and conclusion. -/
theorem regressor_refinement_convergence_witness :
    1 ≤ passBudget (some 1) 3 2 ∧
    ((∀ a, mse a a = 0) ∧
     (refineLoop (some 1) 3 2 (fun _ => [(1 : ℚ)]) 1 (numpasses (some 1) 3 2)
         ((fun _ => [(1 : ℚ)]) 0)).2.2 =
       (List.range' 1 (refineLoop (some 1) 3 2 (fun _ => [(1 : ℚ)]) 1 (numpasses (some 1) 3 2)
           ((fun _ => [(1 : ℚ)]) 0)).1).map (mseAt (fun _ => [(1 : ℚ)])) ∧
     (∀ q, 1 ≤ q →
         q < (refineLoop (some 1) 3 2 (fun _ => [(1 : ℚ)]) 1 (numpasses (some 1) 3 2)
             ((fun _ => [(1 : ℚ)]) 0)).1 →
         ¬ firesAt (some 1) 3 2 q (mseAt (fun _ => [(1 : ℚ)]) q)) ∧
     firesAt (some 1) 3 2
       (refineLoop (some 1) 3 2 (fun _ => [(1 : ℚ)]) 1 (numpasses (some 1) 3 2)
           ((fun _ => [(1 : ℚ)]) 0)).1
       (mseAt (fun _ => [(1 : ℚ)])
         (refineLoop (some 1) 3 2 (fun _ => [(1 : ℚ)]) 1 (numpasses (some 1) 3 2)
             ((fun _ => [(1 : ℚ)]) 0)).1) ∧
     (refineLoop (some 1) 3 2 (fun _ => [(1 : ℚ)]) 1 (numpasses (some 1) 3 2)
         ((fun _ => [(1 : ℚ)]) 0)).1 ≤ passBudget (some 1) 3 2) :=
  ⟨by decide, regressor_refinement_convergence (some 1) 3 2 (fun _ => [(1 : ℚ)]) (by decide)⟩

/-- Outcome of the per-pass refinement step: `hardAbort` models the
`sys.exit()` at rapidtide.py line 2691, `continueLoop stop` the normal
continuation with `stop = some reason` when `stoprefining` is set. -/
inductive RefineStepResult where
  | hardAbort
  | continueLoop (stop : Option StopReason)
  deriving DecidableEq, Repr

/-- The refinement step of one pass (rapidtide.py lines 2689-2691, 2771 and
2903-2906): `numinmask` is the voxel count of the refinement mask built by
`makerefinemask`; if it is zero the run exits immediately.  Otherwise, when
`dorefine` processed `voxelsprocessed_rr > 0` voxels the convergence decision
is taken, and when it processed zero voxels the pass loop is stopped with
reason `emptymask`. -/
def refineStep (numinmask voxelsprocessed_rr : ℕ) (convergencethresh : Option ℚ)
    (maxpasses passes thepass : ℕ) (regressormse : ℚ) : RefineStepResult :=
  if numinmask = 0 then .hardAbort
  else if 0 < voxelsprocessed_rr then
    .continueLoop (convergenceDecision convergencethresh maxpasses passes thepass regressormse)
  else .continueLoop (some .emptymask)

/-- **C2.**  A refinement mask selecting zero voxels terminates the run
immediately (hard abort), and a regressor-combination step processing zero
voxels terminates the pass loop at the end of the pass with stop reason
`emptymask`. -/
theorem refine_empty_mask_handling (n v : ℕ) (th : Option ℚ) (maxp passes pass : ℕ)
    (m : ℚ) (hn : n ≠ 0) :
    refineStep 0 v th maxp passes pass m = .hardAbort ∧
    refineStep n 0 th maxp passes pass m = .continueLoop (some .emptymask) := by
  constructor
  · simp [refineStep]
  · simp [refineStep, hn]

/-- A closed instance of C2's hypothesis and conclusion. -/
theorem refine_empty_mask_handling_witness :
    (1 : ℕ) ≠ 0 ∧
    (refineStep 0 5 none 1 1 1 0 = .hardAbort ∧
     refineStep 1 0 none 1 1 1 0 = .continueLoop (some .emptymask)) :=
  ⟨by decide, refine_empty_mask_handling 1 5 none 1 1 1 0 (by decide)⟩

/-- `ratiotodelay` (refinedelay.py lines 153-160).  The trained calibration
spline `ratiotooffsetfunc` (a scipy `CubicSpline`, external to the sources) is
abstracted as a function `f : ℚ → ℚ`; `maplimits` is the trained ratio range
pair set by `trainratiotooffset` (line 150). -/
def ratiotodelay (f : ℚ → ℚ) (maplimits : ℚ × ℚ) (theratio : ℚ) : ℚ :=
  if theratio < maplimits.1 then f maplimits.1
  else if maplimits.2 < theratio then f maplimits.2
  else f theratio

/-- **C4.**  `ratiotodelay` evaluates the calibration spline at the input
ratio when it lies within the trained range `[maplimits.1, maplimits.2]`, and
at the nearest range endpoint (never at an out-of-range point) otherwise:
the evaluation point is always the clamp of the ratio into the range. -/
theorem ratiotodelay_clamps (f : ℚ → ℚ) (lims : ℚ × ℚ) (r : ℚ)
    (h : lims.1 ≤ lims.2) :
    ratiotodelay f lims r = f (max lims.1 (min lims.2 r)) ∧
    (lims.1 ≤ r ∧ r ≤ lims.2 → ratiotodelay f lims r = f r) := by
  constructor
  · unfold ratiotodelay
    split_ifs with h1 h2
    · rw [min_eq_right (le_of_lt (lt_of_lt_of_le h1 h)), max_eq_left (le_of_lt h1)]
    · rw [min_eq_left (le_of_lt h2), max_eq_right h]
    · push_neg at h1 h2
      rw [min_eq_right h2, max_eq_right h1]
  · rintro ⟨ha, hb⟩
    unfold ratiotodelay
    split_ifs with h1 h2
    · exact absurd ha (not_le.mpr h1)
    · exact absurd hb (not_le.mpr h2)
    · rfl

/-- A closed instance of C4's hypothesis and conclusion. -/
theorem ratiotodelay_clamps_witness :
    ((0 : ℚ), (1 : ℚ)).1 ≤ ((0 : ℚ), (1 : ℚ)).2 ∧
    (ratiotodelay (fun x => x + 2) (0, 1) 5 =
        (fun x => x + 2) (max ((0 : ℚ), (1 : ℚ)).1 (min ((0 : ℚ), (1 : ℚ)).2 5)) ∧
     (((0 : ℚ), (1 : ℚ)).1 ≤ 5 ∧ (5 : ℚ) ≤ ((0 : ℚ), (1 : ℚ)).2 →
        ratiotodelay (fun x => x + 2) (0, 1) 5 = (fun x => x + 2) 5)) :=
  ⟨by norm_num, ratiotodelay_clamps (fun x => x + 2) (0, 1) 5 (by norm_num)⟩

/-- Modelled from the spec and the IEEE-754/NumPy semantics that
`np.nan_to_num(fitcoeff[:, 1] / fitcoeff[:, 0])` relies on (the array
arithmetic is external to the sources): a double value is NaN, ±infinity, or
a finite value, carried here as an exact rational. -/
inductive PFloat where
  | finite (q : ℚ)
  | posinf
  | neginf
  | nan
  deriving DecidableEq, Repr

/-- NumPy elementwise division of two finite doubles: `x / 0` is NaN when
`x = 0` and ±infinity otherwise (a positive-signed zero denominator; signed
zeros are not distinguished in this model).  Non-finite operand kinds do not
occur at this call site. -/
def fdiv : PFloat → PFloat → PFloat
  | .finite a, .finite b =>
    if b = 0 then (if a = 0 then .nan else if 0 < a then .posinf else .neginf)
    else .finite (a / b)
  | _, _ => .nan

/-- The largest finite IEEE-754 double, `(2^53 - 1) * 2^971`
(= 1.7976931348623157e308), which `np.nan_to_num` substitutes for +inf. -/
def floatMax : ℚ := (2 ^ 53 - 1) * 2 ^ 971

/-- `np.nan_to_num` with default arguments: NaN becomes 0, ±inf become the
largest-magnitude finite doubles. -/
def nan_to_num : PFloat → PFloat
  | .nan => .finite 0
  | .posinf => .finite floatMax
  | .neginf => .finite (-floatMax)
  | .finite q => .finite q

/-- The per-voxel derivative-coefficient ratio computed by `getderivratios`
(refinedelay.py line 223): `np.nan_to_num(fitcoeff[:, 1] / fitcoeff[:, 0])`
with `fitcoeff0` the base GLM coefficient and `fitcoeff1` the derivative
coefficient. -/
def glmderivratio (fitcoeff0 fitcoeff1 : ℚ) : PFloat :=
  nan_to_num (fdiv (.finite fitcoeff1) (.finite fitcoeff0))

/-- **C10, counterexample.**  A voxel with base coefficient 0 and derivative
coefficient 1 gets ratio `floatMax` (the nan_to_num image of +inf), not 0 as
the claim states. -/
theorem glmderivratio_zero_base_counterexample :
    glmderivratio 0 1 ≠ PFloat.finite 0 ∧ glmderivratio 0 1 = PFloat.finite floatMax := by
  constructor
  · simp only [glmderivratio, fdiv, nan_to_num]
    norm_num [floatMax]
  · simp [glmderivratio, fdiv, nan_to_num]

/-- **C10, amended.**  The derivative-coefficient ratio is
`nan_to_num(fitcoeff1 / fitcoeff0)`; its output is always finite: a voxel
whose base coefficient is zero yields 0 exactly when the derivative
coefficient is also zero (the NaN case), and ±floatMax otherwise (the
infinite cases); a nonzero base coefficient yields the exact quotient. -/
theorem glmderivratio_spec (c0 c1 : ℚ) :
    glmderivratio c0 c1 =
      PFloat.finite
        (if c0 = 0 then (if c1 = 0 then 0 else if 0 < c1 then floatMax else -floatMax)
         else c1 / c0) := by
  simp only [glmderivratio, fdiv, nan_to_num]
  split_ifs <;> rfl

/-- The lag-bound configuration check (rapidtide.py lines 484-492): the
magnitude of `lagmin` and of `lagmax` must not exceed half the valid data
duration `(validend - validstart + 1) * fmritr / 2`. -/
def lagBoundsCheck (lagmin lagmax fmritr : ℚ) (validstart validend : ℕ) :
    Except String Unit :=
  if ((validend : ℚ) - (validstart : ℚ) + 1) * fmritr / 2 < |lagmin| then
    Except.error "magnitude of lagmin exceeds half the valid data duration - invalid"
  else if ((validend : ℚ) - (validstart : ℚ) + 1) * fmritr / 2 < |lagmax| then
    Except.error "magnitude of lagmax exceeds half the valid data duration - invalid"
  else Except.ok ()

/-- Python `int()` truncation toward zero. -/
def pyint (q : ℚ) : ℤ := if 0 ≤ q then ⌊q⌋ else ⌈q⌉

/-- `lagmininpts = int((-lagmin / corrtr) - 0.5)` (rapidtide.py line 1520). -/
def lagmininpts (lagmin corrtr : ℚ) : ℤ := pyint (-lagmin / corrtr - 1 / 2)

/-- `lagmaxinpts = int((lagmax / corrtr) + 0.5)` (rapidtide.py line 1521). -/
def lagmaxinpts (lagmax corrtr : ℚ) : ℤ := pyint (lagmax / corrtr + 1 / 2)

/-- The correlation search window width check (rapidtide.py lines 1523-1526). -/
def searchRangeCheck (lagmin lagmax corrtr : ℚ) : Except String Unit :=
  if lagmaxinpts lagmax corrtr + lagmininpts lagmin corrtr < 3 then
    Except.error
      "correlation search range is too narrow - decrease lagmin, increase lagmax, or increase oversample factor"
  else Except.ok ()

/-- Result of starting the pipeline: either a configuration error raised at
startup, or the pass loop actually runs (similarity computation happens only
inside the pass loop). -/
inductive PipelineResult where
  | configError (msg : String)
  | passLoopRun (passes : ℕ)
  deriving DecidableEq, Repr

/-- Pipeline startup sequencing: the lag-bound check (line 484) and the
search-range check (line 1523) both run before the pass loop (line 1833);
the pass loop is entered only if both succeed. -/
def pipelineSetup (lagmin lagmax fmritr corrtr : ℚ) (validstart validend : ℕ)
    (numpasses : ℕ) : PipelineResult :=
  match lagBoundsCheck lagmin lagmax fmritr validstart validend with
  | .error m => .configError m
  | .ok _ =>
    match searchRangeCheck lagmin lagmax corrtr with
    | .error m => .configError m
    | .ok _ => .passLoopRun numpasses

/-- **C6.**  If the magnitude of `lagmin` (or `lagmax`) exceeds half the valid
data duration, or the retained search window has fewer than 3 lag points,
pipeline startup aborts with a descriptive configuration error and the pass
loop (where all similarity computation happens) is never entered. -/
theorem config_errors_abort_before_passes (lagmin lagmax fmritr corrtr : ℚ)
    (validstart validend numpasses : ℕ)
    (h : ((validend : ℚ) - (validstart : ℚ) + 1) * fmritr / 2 < |lagmin| ∨
         ((validend : ℚ) - (validstart : ℚ) + 1) * fmritr / 2 < |lagmax| ∨
         lagmaxinpts lagmax corrtr + lagmininpts lagmin corrtr < 3) :
    (∃ msg, pipelineSetup lagmin lagmax fmritr corrtr validstart validend numpasses =
      .configError msg) ∧
    ∀ k, pipelineSetup lagmin lagmax fmritr corrtr validstart validend numpasses ≠
      .passLoopRun k := by
  unfold pipelineSetup lagBoundsCheck searchRangeCheck
  rcases h with h1 | h2 | h3
  · rw [if_pos h1]
    exact ⟨⟨_, rfl⟩, fun k => by simp⟩
  · by_cases h1 : ((validend : ℚ) - (validstart : ℚ) + 1) * fmritr / 2 < |lagmin|
    · rw [if_pos h1]
      exact ⟨⟨_, rfl⟩, fun k => by simp⟩
    · rw [if_neg h1, if_pos h2]
      exact ⟨⟨_, rfl⟩, fun k => by simp⟩
  · by_cases h1 : ((validend : ℚ) - (validstart : ℚ) + 1) * fmritr / 2 < |lagmin|
    · rw [if_pos h1]
      exact ⟨⟨_, rfl⟩, fun k => by simp⟩
    · rw [if_neg h1]
      by_cases h2 : ((validend : ℚ) - (validstart : ℚ) + 1) * fmritr / 2 < |lagmax|
      · rw [if_pos h2]
        exact ⟨⟨_, rfl⟩, fun k => by simp⟩
      · rw [if_neg h2, if_pos h3]
        exact ⟨⟨_, rfl⟩, fun k => by simp⟩

/-- A closed instance of C6's hypothesis and conclusion: a degenerate search
window (`lagmin = lagmax = 0`, `corrtr = 1`) retains fewer than 3 points. -/
theorem config_errors_abort_before_passes_witness :
    ((((9 : ℕ) : ℚ) - ((0 : ℕ) : ℚ) + 1) * 1 / 2 < |(0 : ℚ)| ∨
      (((9 : ℕ) : ℚ) - ((0 : ℕ) : ℚ) + 1) * 1 / 2 < |(0 : ℚ)| ∨
      lagmaxinpts 0 1 + lagmininpts 0 1 < 3) ∧
    ((∃ msg, pipelineSetup 0 0 1 1 0 9 3 = .configError msg) ∧
     ∀ k, pipelineSetup 0 0 1 1 0 9 3 ≠ .passLoopRun k) := by
  have h : lagmaxinpts 0 1 + lagmininpts 0 1 < 3 := by
    unfold lagmaxinpts lagmininpts pyint
    norm_num
    have h2 : (⌈(-(1 / 2) : ℚ)⌉ : ℤ) ≤ 0 :=
      le_trans (Int.ceil_le_ceil (by norm_num)) (le_of_eq Int.ceil_zero)
    omega
  exact ⟨Or.inr (Or.inr h),
    config_errors_abort_before_passes 0 0 1 1 0 9 3 (Or.inr (Or.inr h))⟩

/-- Modelled from the spec: `tide_stats.getmasksize` (not among the sources)
is the number of nonzero voxels of a mask. -/
def getmasksize (m : List ℚ) : ℕ := m.countP (fun v => v ≠ 0)

/-- Restriction of a working mask by an optional include mask (zero voxels of
the include mask are dropped) and an optional exclude mask (nonzero voxels of
the exclude mask are dropped), as done for `offsetmask` (rapidtide.py lines
2604-2608) and `overallmask` (lines 2650-2654). -/
def applyIncludeExclude (fitmask : List ℚ) (includemask excludemask : Option (List ℚ)) :
    List ℚ :=
  fitmask.mapIdx fun i v =>
    match excludemask with
    | some exc =>
      if exc.getD i 0 ≠ 0 then 0
      else match includemask with
        | some inc => if inc.getD i 0 = 0 then 0 else v
        | none => v
    | none =>
      match includemask with
      | some inc => if inc.getD i 0 = 0 then 0 else v
      | none => v

/-- The mask used for the offset calculation (rapidtide.py lines 2602-2613):
the fit mask restricted by the offset include/exclude masks, or, when that
restriction selects zero voxels, the unrestricted fit mask. -/
def computeOffsetmask (fitmask : List ℚ) (inc exc : Option (List ℚ)) : List ℚ :=
  if getmasksize (applyIncludeExclude fitmask inc exc) = 0 then fitmask
  else applyIncludeExclude fitmask inc exc

/-- The refinement exclude mask augmented with the despeckled voxels
(rapidtide.py lines 2634-2647): when no exclude mask exists the despeckle mask
becomes the exclude mask; otherwise despeckled voxels are added to it. -/
def despeckleAugmentedExcludeMask (internalrefineexcludemask : Option (List ℚ))
    (despeckleinclude : List ℚ) : List ℚ :=
  match internalrefineexcludemask with
  | none => despeckleinclude.map fun d => if d = 0 then 0 else 1
  | some exc =>
    (exc.map fun e => if 0 < e then (1 : ℚ) else 0).mapIdx fun i v =>
      if despeckleinclude.getD i 0 ≠ 0 then 1 else v

/-- The exclude mask actually used for refinement (rapidtide.py lines
2630-2659): unchanged when despeckled voxels may be refined or despeckling is
off; otherwise augmented with the despeckled voxels, unless that augmented
exclusion would leave zero voxels for refinement, in which case the original
exclude mask is kept (the despeckle-based exclusion is dropped). -/
def computeRefineExcludeMask (refinedespeckled : Bool) (despeckle_passes : ℕ)
    (internalrefineexcludemask : Option (List ℚ)) (despeckleinclude : List ℚ)
    (fitmask : List ℚ) (refineinclude : Option (List ℚ)) : Option (List ℚ) :=
  if refinedespeckled = true ∨ despeckle_passes = 0 then internalrefineexcludemask
  else
    if getmasksize (applyIncludeExclude fitmask refineinclude
        (some (despeckleAugmentedExcludeMask internalrefineexcludemask despeckleinclude))) = 0
    then internalrefineexcludemask
    else some (despeckleAugmentedExcludeMask internalrefineexcludemask despeckleinclude)

/-- **C7.**  Exclude masks that would empty the working voxel set are relaxed
instead of aborting: when the despeckle-augmented exclusion would leave zero
refinement voxels, the despeckle-based exclusion is dropped for the pass, and
when the offset include/exclude masks would leave zero voxels, the
unrestricted fit mask is used for the offset calculation. -/
theorem mask_fallbacks (fitmask : List ℚ) (inc exc refineinc refineexc : Option (List ℚ))
    (despeckleinclude : List ℚ) (dp : ℕ)
    (h1 : getmasksize (applyIncludeExclude fitmask inc exc) = 0)
    (hdp : dp ≠ 0)
    (h2 : getmasksize (applyIncludeExclude fitmask refineinc
        (some (despeckleAugmentedExcludeMask refineexc despeckleinclude))) = 0) :
    computeOffsetmask fitmask inc exc = fitmask ∧
    computeRefineExcludeMask false dp refineexc despeckleinclude fitmask refineinc =
      refineexc := by
  constructor
  · simp [computeOffsetmask, h1]
  · simp [computeRefineExcludeMask, hdp, h2]

/-- A closed instance of C7's hypotheses and conclusion. -/
theorem mask_fallbacks_witness :
    getmasksize (applyIncludeExclude [1] none (some [1])) = 0 ∧
    (1 : ℕ) ≠ 0 ∧
    getmasksize (applyIncludeExclude [1] none
      (some (despeckleAugmentedExcludeMask none [1]))) = 0 ∧
    (computeOffsetmask [1] none (some [1]) = [1] ∧
     computeRefineExcludeMask false 1 none [1] [1] none = none) :=
  ⟨by decide, by decide, by decide,
   mask_fallbacks [1] none (some [1]) none none [1] 1 (by decide) (by decide) (by decide)⟩

/-- The similarity-function window state of the `Correlator` helper object:
the reference timecourse set by `setreftc` and the retained lag window set by
`setlimits` (both re-invoked inside the pass loop, rapidtide.py 2099-2101). -/
structure CorrelatorState where
  reftc : List ℚ
  lagmininpts : ℤ
  lagmaxinpts : ℤ
  deriving DecidableEq, Repr

/-- `theCorrelator.setlimits(lagmininpts, lagmaxinpts)`. -/
def CorrelatorState.setlimits (c : CorrelatorState) (lmin lmax : ℤ) : CorrelatorState :=
  { c with lagmininpts := lmin, lagmaxinpts := lmax }

/-- `theCorrelator.setreftc(cleaned_resampref_y)`. -/
def CorrelatorState.setreftc (c : CorrelatorState) (tc : List ℚ) : CorrelatorState :=
  { c with reftc := tc }

/-- The pass loop's interaction with the correlator (rapidtide.py lines
1520-1521, 1528 and 2099-2104): before the loop `lagmininpts` and
`lagmaxinpts` are computed once from `lagmin`, `lagmax` and `corrtr`; each
pass re-applies `setlimits` with those same loop-invariant values and installs
the pass's (varying) cleaned reference.  Returns the final correlator state
and, per pass, the window that pass used for every voxel's fit. -/
def passLoopWindows (lagmin lagmax corrtr : ℚ) (refs : ℕ → List ℚ) :
    (c : CorrelatorState) → (n : ℕ) → CorrelatorState × List (ℤ × ℤ)
  | c, 0 => (c, [])
  | c, n + 1 =>
    let c' := (c.setlimits (lagmininpts lagmin corrtr) (lagmaxinpts lagmax corrtr)).setreftc
      (refs n)
    let rest := passLoopWindows lagmin lagmax corrtr refs c' n
    (rest.1, (c'.lagmininpts, c'.lagmaxinpts) :: rest.2)

/-- **C8, counterexample.**  The lag search bounds need not be symmetric about
zero: the configuration `lagmin = -2, lagmax = 10` (with `corrtr = fmritr = 1`
and 40 valid timepoints) passes every startup check, yet the retained window
`[corrorigin - lagmininpts, corrorigin + lagmaxinpts]` extends 1 point below
and 10 points above the origin. -/
theorem lag_window_symmetry_counterexample :
    lagBoundsCheck (-2) 10 1 0 39 = .ok () ∧
    searchRangeCheck (-2) 10 1 = .ok () ∧
    lagmininpts (-2) 1 ≠ lagmaxinpts 10 1 := by
  have hmin : lagmininpts (-2) 1 = 1 := by
    unfold lagmininpts pyint
    norm_num
  have hmax : lagmaxinpts 10 1 = 10 := by
    unfold lagmaxinpts pyint
    norm_num
  refine ⟨?_, ?_, ?_⟩
  · unfold lagBoundsCheck
    norm_num
  · unfold searchRangeCheck
    rw [hmin, hmax]
    norm_num
  · rw [hmin, hmax]
    norm_num

/-- **C8, amended.**  The retained lag index window is computed once from
`lagmin` and `lagmax` before the pass loop and the identical window
`(lagmininpts, lagmaxinpts)` is re-installed in the shared correlator at every
pass, so every voxel of every pass is fit through the same window (symmetry
about zero holds only when `lagmax = -lagmin`). -/
theorem lag_window_fixed_across_passes (lagmin lagmax corrtr : ℚ) (refs : ℕ → List ℚ)
    (c : CorrelatorState) (n : ℕ) :
    ∀ w ∈ (passLoopWindows lagmin lagmax corrtr refs c n).2,
      w = (lagmininpts lagmin corrtr, lagmaxinpts lagmax corrtr) := by
  induction n generalizing c with
  | zero => intro w hw; simp [passLoopWindows] at hw
  | succ n ih =>
    intro w hw
    simp only [passLoopWindows, List.mem_cons] at hw
    rcases hw with hw | hw
    · simpa [CorrelatorState.setlimits, CorrelatorState.setreftc] using hw
    · exact ih _ w hw

/-- A closed instance of C8's amended conclusion (the theorem has a
membership hypothesis after unfolding the bounded quantifier). -/
theorem lag_window_fixed_across_passes_witness :
    ∃ w, w ∈ (passLoopWindows (-2) 10 1 (fun _ => []) ⟨[], 0, 0⟩ 2).2 ∧
      w = (lagmininpts (-2) 1, lagmaxinpts 10 1) := by
  refine ⟨((passLoopWindows (-2) 10 1 (fun _ => []) ⟨[], 0, 0⟩ 2).2).headI, ?_, ?_⟩
  · simp [passLoopWindows, CorrelatorState.setlimits, CorrelatorState.setreftc]
  · exact lag_window_fixed_across_passes (-2) 10 1 (fun _ => []) ⟨[], 0, 0⟩ 2 _
      (by simp [passLoopWindows, CorrelatorState.setlimits, CorrelatorState.setreftc])

/-- The filesystem operations of a run that touch the lifecycle marker files
(`{outputname}_DONE.txt` and `{outputname}_ISRUNNING.txt`); `other` stands for
any of the run's operations that touches neither marker (no operation between
rapidtide.py line 262 and line 4152 does). -/
inductive FileOp where
  | unlinkDone
  | touchIsRunning
  | unlinkIsRunning
  | touchDone
  | other
  deriving DecidableEq, Repr

/-- Existence of the two marker files. -/
structure MarkerState where
  doneExists : Bool
  isrunningExists : Bool
  deriving DecidableEq, Repr

/-- Effect of one operation on the marker files. -/
def applyOp : MarkerState → FileOp → MarkerState
  | s, .unlinkDone => { s with doneExists := false }
  | s, .touchIsRunning => { s with isrunningExists := true }
  | s, .unlinkIsRunning => { s with isrunningExists := false }
  | s, .touchDone => { s with doneExists := true }
  | s, .other => s

/-- The marker-file trace of a successful run (rapidtide.py lines 259 and 262
at startup, 4152 and 4155 at the very end, with `b` marker-neutral operations
in between). -/
def successfulRunTrace (b : ℕ) : List FileOp :=
  FileOp.unlinkDone :: FileOp.touchIsRunning ::
    (List.replicate b FileOp.other ++ [FileOp.unlinkIsRunning, FileOp.touchDone])

theorem foldl_applyOp_done_false (ops : List FileOp) :
    ∀ s : MarkerState, s.doneExists = false →
      (∀ op ∈ ops, op ≠ FileOp.touchDone) →
      (List.foldl applyOp s ops).doneExists = false := by
  induction ops with
  | nil => intro s hs _; exact hs
  | cons op rest ih =>
    intro s hs hops
    have hop := hops op (List.mem_cons_self op rest)
    have hrest : ∀ o ∈ rest, o ≠ FileOp.touchDone :=
      fun o ho => hops o (List.mem_cons_of_mem op ho)
    cases op with
    | touchDone => exact absurd rfl hop
    | unlinkDone => exact ih _ rfl hrest
    | touchIsRunning => exact ih _ hs hrest
    | unlinkIsRunning => exact ih _ hs hrest
    | other => exact ih _ hs hrest

theorem take_tail_no_touchDone (b : ℕ) :
    ∀ k, k ≤ b + 1 →
      ∀ op ∈ (List.replicate b FileOp.other ++
          [FileOp.unlinkIsRunning, FileOp.touchDone]).take k,
        op ≠ FileOp.touchDone := by
  induction b with
  | zero =>
    intro k hk op hop
    interval_cases k <;> simp_all
  | succ b ih =>
    intro k hk op hop
    cases k with
    | zero => simp at hop
    | succ k =>
      simp only [List.replicate_succ, List.cons_append, List.take_succ_cons,
        List.mem_cons] at hop
      rcases hop with rfl | hop
      · simp
      · exact ih k (by omega) op hop

theorem foldl_applyOp_other (b : ℕ) (s : MarkerState) :
    List.foldl applyOp s (List.replicate b FileOp.other) = s := by
  induction b with
  | zero => rfl
  | succ b ih => simpa [List.replicate_succ, applyOp] using ih

/-- **C9.**  Along the marker-file trace of a successful run started in any
filesystem state: after the two startup operations the ISRUNNING marker
exists; after any number `k ≥ 1` of operations short of the full run the DONE
marker does not exist (it was removed by the very first operation and nothing
before the final operation recreates it); and the completed run ends with the
DONE marker present and the ISRUNNING marker removed. -/
theorem marker_file_lifecycle (s0 : MarkerState) (b k : ℕ) (hk1 : 1 ≤ k)
    (hk2 : k < (successfulRunTrace b).length) :
    (List.foldl applyOp s0 ((successfulRunTrace b).take 2)).isrunningExists = true ∧
    (List.foldl applyOp s0 ((successfulRunTrace b).take k)).doneExists = false ∧
    List.foldl applyOp s0 (successfulRunTrace b) = ⟨true, false⟩ := by
  have hlen : (successfulRunTrace b).length = b + 4 := by
    simp [successfulRunTrace]
  refine ⟨?_, ?_, ?_⟩
  · simp [successfulRunTrace, applyOp]
  · obtain ⟨k, rfl⟩ : ∃ k', k = k' + 1 := ⟨k - 1, by omega⟩
    simp only [successfulRunTrace, List.take_succ_cons]
    simp only [List.foldl_cons]
    cases k with
    | zero => simp [applyOp]
    | succ k =>
      simp only [List.take_succ_cons, List.foldl_cons]
      apply foldl_applyOp_done_false
      · rfl
      · exact take_tail_no_touchDone b k (by rw [hlen] at hk2; omega)
  · simp only [successfulRunTrace, List.foldl_cons, List.foldl_append]
    rw [foldl_applyOp_other]
    rfl

/-- A closed instance of C9's hypotheses and conclusion (a run with 3
intermediate operations, observed after 4 of its operations, started with
both markers present). -/
theorem marker_file_lifecycle_witness :
    1 ≤ 4 ∧ 4 < (successfulRunTrace 3).length ∧
    ((List.foldl applyOp ⟨true, true⟩ ((successfulRunTrace 3).take 2)).isrunningExists = true ∧
     (List.foldl applyOp ⟨true, true⟩ ((successfulRunTrace 3).take 4)).doneExists = false ∧
     List.foldl applyOp ⟨true, true⟩ (successfulRunTrace 3) = ⟨true, false⟩) :=
  ⟨by decide, by decide, marker_file_lifecycle ⟨true, true⟩ 3 4 (by decide) (by decide)⟩

/-- A 3-D volume of per-voxel values (an array of shape `nativespaceshape`). -/
abbrev V3 := List (List (List ℚ))

/-- Read voxel (i,j,k) of a volume, 0 outside the volume. -/
def get3 (g : V3) (i j k : ℕ) : ℚ := ((g.getD i []).getD j []).getD k 0

/-- `scipy.ndimage.median_filter`'s median of a neighborhood: the element of
rank `length / 2` (rank 13 for 27 values) of the sorted values. -/
def listMedian (xs : List ℚ) : ℚ :=
  (List.insertionSort (· ≤ ·) xs).getD (xs.length / 2) 0

/-- The neighbor indices of `i` along an axis of length `n` for a radius-1
kernel under `median_filter`'s default reflect boundary mode (reflection at
the edges coincides with clamping for radius 1). -/
def nbrIdx (n i : ℕ) : List ℕ := [i - 1, i, min (i + 1) (n - 1)]

/-- The 27 values of the 3x3x3 neighborhood of voxel (i,j,k). -/
def neighborVals (g : V3) (i j k : ℕ) : List ℚ :=
  (nbrIdx g.length i).flatMap fun a =>
    (nbrIdx (g.getD a []).length j).flatMap fun b =>
      (nbrIdx ((g.getD a []).getD b []).length k).map fun c => get3 g a b c

/-- Map with explicit position index (used to embed per-voxel operations). -/
def mapFrom {α β : Type} (f : ℕ → α → β) : ℕ → List α → List β
  | _, [] => []
  | n, x :: xs => f n x :: mapFrom f (n + 1) xs

/-- Per-voxel indexed map over a volume. -/
def mapIdx3 (f : ℕ → ℕ → ℕ → ℚ → ℚ) (g : V3) : V3 :=
  mapFrom (fun i plane =>
    mapFrom (fun j row => mapFrom (fun k v => f i j k v) 0 row) 0 plane) 0 g

/-- `ndimage.median_filter(outmaparray.reshape(nativespaceshape), 3)`
(rapidtide.py line 2441): each voxel becomes the median of its 3x3x3
neighborhood. -/
def medianFilter3 (g : V3) : V3 :=
  mapIdx3 (fun i j k _ => listMedian (neighborVals g i j k)) g

/-- Elementwise combination of two volumes. -/
def map2V3 (f : ℚ → ℚ → ℚ) (a b : V3) : V3 :=
  List.zipWith (fun pa pb => List.zipWith (fun ra rb => List.zipWith f ra rb) pa pb) a b

/-- The "voxel we're happy with" marker `-1000000.0` (rapidtide.py line 2444). -/
def sentinel : ℚ := -1000000

/-- rapidtide.py lines 2445-2449: a suspect voxel (lag deviating from the
3x3x3 spatial median by more than `despeckle_thresh`) gets the local median
as its initial lag for refitting; every other voxel gets the sentinel. -/
def initlags (despeckle_thresh : ℚ) (lags : V3) : V3 :=
  map2V3 (fun l m => if despeckle_thresh < |l - m| then m else sentinel) lags
    (medianFilter3 lags)

/-- Count the voxels satisfying `p`. -/
def countV3 (p : ℚ → Bool) (g : V3) : ℕ :=
  (g.map fun plane => (plane.map fun row => row.countP p).sum).sum

/-- `len(np.where(initlags != -1000000.0)[0])` (rapidtide.py line 2451): the
number of suspect voxels. -/
def numdespeckled (init : V3) : ℕ := countV3 (fun v => v != sentinel) init

/-- `len(initlags)` (rapidtide.py line 2450): the number of voxels. -/
def sizeV3 (g : V3) : ℕ := countV3 (fun _ => true) g

/-- Modelled from the spec: the despeckling refit ("re-run PeakFitter for
suspects only, seeding the search with the local median"; `fitcorr` with
`despeckling=True` and `initiallags` is external to the sources).
`refit i j k seed` is the lag the peak fitter returns for voxel (i,j,k) when
seeded with `seed`; voxels whose initial lag is the sentinel are skipped and
keep their lag. -/
def applyRefit (refit : ℕ → ℕ → ℕ → ℚ → ℚ) (lags init : V3) : V3 :=
  mapIdx3 (fun i j k l =>
    if get3 init i j k = sentinel then l else refit i j k (get3 init i j k)) lags

/-- The despeckle sub-pass loop (rapidtide.py lines 2434-2494): at most
`fuel = despeckle_passes` sub-passes; a refit sub-pass runs only while there
are voxels, the suspect count is strictly below the previous sub-pass's count
(initially 1000000) and strictly positive; otherwise despeckling terminates.
Returns the final lag volume and the suspect count of every refit sub-pass
that ran. -/
def despeckleLoop (refit : ℕ → ℕ → ℕ → ℚ → ℚ) (despeckle_thresh : ℚ) :
    (fuel : ℕ) → (lags : V3) → (lastnumdespeckled : ℕ) → V3 × List ℕ
  | 0, lags, _ => (lags, [])
  | fuel + 1, lags, lastnum =>
    if 0 < sizeV3 (initlags despeckle_thresh lags) ∧
        numdespeckled (initlags despeckle_thresh lags) < lastnum ∧
        0 < numdespeckled (initlags despeckle_thresh lags) then
      (( despeckleLoop refit despeckle_thresh fuel
          (applyRefit refit lags (initlags despeckle_thresh lags))
          (numdespeckled (initlags despeckle_thresh lags))).1,
       numdespeckled (initlags despeckle_thresh lags) ::
         (despeckleLoop refit despeckle_thresh fuel
           (applyRefit refit lags (initlags despeckle_thresh lags))
           (numdespeckled (initlags despeckle_thresh lags))).2)
    else (lags, [])

theorem length_mapFrom {α β : Type} (f : ℕ → α → β) :
    ∀ (n : ℕ) (l : List α), (mapFrom f n l).length = l.length := by
  intro n l
  induction l generalizing n with
  | nil => rfl
  | cons x xs ih => simp [mapFrom, ih]

theorem getD_mapFrom {α β : Type} (f : ℕ → α → β) :
    ∀ (l : List α) (n i : ℕ), i < l.length → ∀ (d : β) (da : α),
      (mapFrom f n l).getD i d = f (n + i) (l.getD i da) := by
  intro l
  induction l with
  | nil => intro n i hi; simp at hi
  | cons x xs ih =>
    intro n i hi d da
    cases i with
    | zero => simp [mapFrom]
    | succ i =>
      simp only [mapFrom, List.getD_cons_succ]
      rw [ih n.succ i (by simpa using hi) d da]
      congr 1
      omega

theorem getD_zipWith {α β γ : Type} (f : α → β → γ) :
    ∀ (a : List α) (b : List β) (i : ℕ), i < a.length → i < b.length →
      ∀ (d : γ) (da : α) (db : β),
        (List.zipWith f a b).getD i d = f (a.getD i da) (b.getD i db) := by
  intro a
  induction a with
  | nil => intro b i hi; simp at hi
  | cons x xs ih =>
    intro b i hia hib d da db
    cases b with
    | nil => simp at hib
    | cons y ys =>
      cases i with
      | zero => simp
      | succ i => simpa using ih ys i (by simpa using hia) (by simpa using hib) d da db

theorem get3_mapIdx3 (f : ℕ → ℕ → ℕ → ℚ → ℚ) (g : V3) (i j k : ℕ)
    (hi : i < g.length) (hj : j < (g.getD i []).length)
    (hk : k < ((g.getD i []).getD j []).length) :
    get3 (mapIdx3 f g) i j k = f i j k (get3 g i j k) := by
  unfold get3 mapIdx3
  rw [getD_mapFrom _ g 0 i hi [] []]
  rw [getD_mapFrom _ (g.getD i []) 0 j hj [] []]
  rw [getD_mapFrom _ ((g.getD i []).getD j []) 0 k hk 0 0]
  simp

theorem get3_initlags_cases (th : ℚ) (lags : V3) (i j k : ℕ) :
    get3 (initlags th lags) i j k = 0 ∨
    ((i < lags.length ∧ j < (lags.getD i []).length ∧
        k < ((lags.getD i []).getD j []).length) ∧
      get3 (initlags th lags) i j k =
        (if th < |get3 lags i j k - get3 (medianFilter3 lags) i j k| then
          get3 (medianFilter3 lags) i j k else sentinel)) := by
  have hlenB : (medianFilter3 lags).length = lags.length := by
    unfold medianFilter3 mapIdx3
    exact length_mapFrom _ 0 lags
  unfold initlags map2V3 get3
  by_cases hi : i < lags.length
  · have hBval : (medianFilter3 lags).getD i [] =
        mapFrom (fun j row =>
          mapFrom (fun k v => listMedian (neighborVals lags i j k)) 0 row) 0
          (lags.getD i []) := by
      unfold medianFilter3 mapIdx3
      rw [getD_mapFrom _ lags 0 i hi [] []]
      simp
    have hlenBi : ((medianFilter3 lags).getD i []).length = (lags.getD i []).length := by
      rw [hBval, length_mapFrom]
    rw [getD_zipWith _ lags (medianFilter3 lags) i hi (by omega) [] [] []]
    by_cases hj : j < (lags.getD i []).length
    · have hBvalj : ((medianFilter3 lags).getD i []).getD j [] =
          mapFrom (fun k v => listMedian (neighborVals lags i j k)) 0
            ((lags.getD i []).getD j []) := by
        rw [hBval, getD_mapFrom _ (lags.getD i []) 0 j hj [] []]
        simp
      have hlenBij : (((medianFilter3 lags).getD i []).getD j []).length =
          ((lags.getD i []).getD j []).length := by
        rw [hBvalj, length_mapFrom]
      rw [getD_zipWith _ (lags.getD i []) ((medianFilter3 lags).getD i []) j hj
        (by omega) [] [] []]
      by_cases hk : k < ((lags.getD i []).getD j []).length
      · rw [getD_zipWith _ ((lags.getD i []).getD j [])
          (((medianFilter3 lags).getD i []).getD j []) k hk (by omega) 0 0 0]
        exact Or.inr ⟨⟨hi, hj, hk⟩, rfl⟩
      · left
        have hz : (List.zipWith (fun l m => if th < |l - m| then m else sentinel)
            ((lags.getD i []).getD j [])
            (((medianFilter3 lags).getD i []).getD j [])).getD k (0 : ℚ) = 0 := by
          apply List.getD_eq_default
          rw [List.length_zipWith]
          omega
        exact hz
    · left
      have hz : (List.zipWith
          (fun ra rb => List.zipWith (fun l m => if th < |l - m| then m else sentinel) ra rb)
          (lags.getD i []) ((medianFilter3 lags).getD i [])).getD j ([] : List ℚ) = [] := by
        apply List.getD_eq_default
        rw [List.length_zipWith]
        omega
      rw [hz, List.getD_nil]
  · left
    have hz : (List.zipWith
        (fun pa pb => List.zipWith
          (fun ra rb => List.zipWith (fun l m => if th < |l - m| then m else sentinel) ra rb)
          pa pb)
        lags (medianFilter3 lags)).getD i ([] : List (List ℚ)) = [] := by
      apply List.getD_eq_default
      rw [List.length_zipWith]
      omega
    rw [hz, List.getD_nil, List.getD_nil]

theorem despeckleLoop_trace (refit : ℕ → ℕ → ℕ → ℚ → ℚ) (th : ℚ) :
    ∀ (fuel : ℕ) (lags : V3) (lastnum : ℕ),
      (despeckleLoop refit th fuel lags lastnum).2.length ≤ fuel ∧
      List.Chain' (fun x y : ℕ => y < x)
        (lastnum :: (despeckleLoop refit th fuel lags lastnum).2) ∧
      ∀ c ∈ (despeckleLoop refit th fuel lags lastnum).2, 0 < c := by
  intro fuel
  induction fuel with
  | zero =>
    intro lags lastnum
    refine ⟨?_, ?_, ?_⟩ <;> simp [despeckleLoop]
  | succ fuel ih =>
    intro lags lastnum
    by_cases hcond : 0 < sizeV3 (initlags th lags) ∧
        numdespeckled (initlags th lags) < lastnum ∧
        0 < numdespeckled (initlags th lags)
    · have hout : despeckleLoop refit th (fuel + 1) lags lastnum =
          ((despeckleLoop refit th fuel (applyRefit refit lags (initlags th lags))
              (numdespeckled (initlags th lags))).1,
           numdespeckled (initlags th lags) ::
             (despeckleLoop refit th fuel (applyRefit refit lags (initlags th lags))
               (numdespeckled (initlags th lags))).2) := by
        simp only [despeckleLoop, if_pos hcond]
      rw [hout]
      obtain ⟨ih1, ih2, ih3⟩ :=
        ih (applyRefit refit lags (initlags th lags)) (numdespeckled (initlags th lags))
      refine ⟨by simpa using Nat.succ_le_succ ih1, ?_, ?_⟩
      · rw [List.chain'_cons]
        exact ⟨hcond.2.1, ih2⟩
      · intro c hc
        rcases List.mem_cons.mp hc with rfl | hc
        · exact hcond.2.2
        · exact ih3 c hc
    · have hout : despeckleLoop refit th (fuel + 1) lags lastnum = (lags, []) := by
        simp only [despeckleLoop, if_neg hcond]
      rw [hout]
      exact ⟨Nat.zero_le _, List.chain'_singleton lastnum, fun c hc => by simp at hc⟩

/-- **C3.**  The despeckling loop of a pass runs at most `despeckle_passes`
refit sub-passes; a refit sub-pass runs only when its suspect count (voxels
whose lag deviates from the 3x3x3 spatial median by more than
`despeckle_thresh`) is strictly smaller than the previous sub-pass's count
and strictly positive — so the recorded counts form a strictly decreasing
positive chain below the initial 1000000 — and a sub-pass leaves every
non-suspect voxel's lag unchanged. -/
theorem despeckle_bounded_and_preserving (refit : ℕ → ℕ → ℕ → ℚ → ℚ)
    (th : ℚ) (despeckle_passes : ℕ) (lags0 lags : V3) (i j k : ℕ)
    (hsent : get3 (initlags th lags) i j k = sentinel) :
    (despeckleLoop refit th despeckle_passes lags0 1000000).2.length ≤ despeckle_passes ∧
    List.Chain' (fun x y : ℕ => y < x)
      (1000000 :: (despeckleLoop refit th despeckle_passes lags0 1000000).2) ∧
    (∀ c ∈ (despeckleLoop refit th despeckle_passes lags0 1000000).2, 0 < c) ∧
    get3 (applyRefit refit lags (initlags th lags)) i j k = get3 lags i j k := by
  obtain ⟨h1, h2, h3⟩ := despeckleLoop_trace refit th despeckle_passes lags0 1000000
  refine ⟨h1, h2, h3, ?_⟩
  rcases get3_initlags_cases th lags i j k with hzero | ⟨⟨hi, hj, hk⟩, _⟩
  · rw [hzero] at hsent
    exact absurd hsent.symm (by norm_num [sentinel])
  · rw [applyRefit, get3_mapIdx3 _ lags i j k hi hj hk, if_pos hsent]

/-- A closed instance of C3's hypothesis and conclusion (a 1x1x1 lag volume
whose single voxel agrees with its neighborhood median, hence is not a
suspect). -/
theorem despeckle_bounded_and_preserving_witness :
    get3 (initlags 1 [[[0]]]) 0 0 0 = sentinel ∧
    ((despeckleLoop (fun _ _ _ s => s) 1 2 [[[0]]] 1000000).2.length ≤ 2 ∧
     List.Chain' (fun x y : ℕ => y < x)
       (1000000 :: (despeckleLoop (fun _ _ _ s => s) 1 2 [[[0]]] 1000000).2) ∧
     (∀ c ∈ (despeckleLoop (fun _ _ _ s => s) 1 2 [[[0]]] 1000000).2, 0 < c) ∧
     get3 (applyRefit (fun _ _ _ s => s) [[[0]]] (initlags 1 [[[0]]])) 0 0 0 =
       get3 [[[0]]] 0 0 0) := by
  have hsent : get3 (initlags 1 [[[0]]]) 0 0 0 = sentinel := by
    have hmed : medianFilter3 [[[0]]] = [[[0]]] := by decide
    unfold initlags
    rw [hmed]
    norm_num [map2V3, get3]
  exact ⟨hsent,
    despeckle_bounded_and_preserving (fun _ _ _ s => s) 1 2 [[[0]]] [[[0]]] 0 0 0 hsent⟩

theorem length_mapIdx3 (f : ℕ → ℕ → ℕ → ℚ → ℚ) (g : V3) :
    (mapIdx3 f g).length = g.length := by
  unfold mapIdx3
  exact length_mapFrom _ 0 g

theorem getD2_mapIdx3 (f : ℕ → ℕ → ℕ → ℚ → ℚ) (g : V3) (i : ℕ) (hi : i < g.length) :
    (mapIdx3 f g).getD i [] =
      mapFrom (fun j row => mapFrom (fun k v => f i j k v) 0 row) 0 (g.getD i []) := by
  unfold mapIdx3
  rw [getD_mapFrom _ g 0 i hi [] []]
  simp

theorem getD3_mapIdx3 (f : ℕ → ℕ → ℕ → ℚ → ℚ) (g : V3) (i j : ℕ) (hi : i < g.length)
    (hj : j < (g.getD i []).length) :
    ((mapIdx3 f g).getD i []).getD j [] =
      mapFrom (fun k v => f i j k v) 0 ((g.getD i []).getD j []) := by
  rw [getD2_mapIdx3 f g i hi, getD_mapFrom _ (g.getD i []) 0 j hj [] []]
  simp

theorem length_map2V3 (F : ℚ → ℚ → ℚ) (a b : V3) :
    (map2V3 F a b).length = min a.length b.length := by
  unfold map2V3
  exact List.length_zipWith _ a b

theorem getD2_map2V3 (F : ℚ → ℚ → ℚ) (a b : V3) (i : ℕ) (hia : i < a.length)
    (hib : i < b.length) :
    (map2V3 F a b).getD i [] =
      List.zipWith (fun ra rb => List.zipWith F ra rb) (a.getD i []) (b.getD i []) := by
  unfold map2V3
  rw [getD_zipWith _ a b i hia hib [] [] []]

theorem getD3_map2V3 (F : ℚ → ℚ → ℚ) (a b : V3) (i j : ℕ) (hia : i < a.length)
    (hib : i < b.length) (hja : j < (a.getD i []).length)
    (hjb : j < (b.getD i []).length) :
    ((map2V3 F a b).getD i []).getD j [] =
      List.zipWith F ((a.getD i []).getD j []) ((b.getD i []).getD j []) := by
  rw [getD2_map2V3 F a b i hia hib,
    getD_zipWith _ (a.getD i []) (b.getD i []) j hja hjb [] [] []]

theorem get3_map2V3 (F : ℚ → ℚ → ℚ) (a b : V3) (i j k : ℕ) (hia : i < a.length)
    (hib : i < b.length) (hja : j < (a.getD i []).length)
    (hjb : j < (b.getD i []).length) (hka : k < ((a.getD i []).getD j []).length)
    (hkb : k < ((b.getD i []).getD j []).length) :
    get3 (map2V3 F a b) i j k = F (get3 a i j k) (get3 b i j k) := by
  unfold get3
  rw [getD3_map2V3 F a b i j hia hib hja hjb,
    getD_zipWith _ ((a.getD i []).getD j []) ((b.getD i []).getD j []) k hka hkb 0 0 0]

theorem shape2_medianFilter3 (g : V3) (i : ℕ) (hi : i < g.length) :
    ((medianFilter3 g).getD i []).length = (g.getD i []).length := by
  unfold medianFilter3
  rw [getD2_mapIdx3 _ g i hi, length_mapFrom]

theorem shape3_medianFilter3 (g : V3) (i j : ℕ) (hi : i < g.length)
    (hj : j < (g.getD i []).length) :
    (((medianFilter3 g).getD i []).getD j []).length =
      ((g.getD i []).getD j []).length := by
  unfold medianFilter3
  rw [getD3_mapIdx3 _ g i j hi hj, length_mapFrom]

/-- `filterderivratios` (refinedelay.py lines 228-268, volumetric branch):
spatially median-filter the raw derivative-ratio map with a 3x3x3 kernel, and
replace every voxel whose deviation from the filtered value exceeds
`patchthresh` times the MAD of the ratio map by the filtered value
(`np.where(np.fabs(glmderivratio - medfilt) > patchthresh * themad, medfilt,
glmderivratio)`).  `themad` stands for `mad(glmderivratio)` computed by the
external `statsmodels.robust.mad`.  Returns `(medfilt, filteredarray)` like
the source. -/
def filterderivratios (glmderivratio : V3) (patchthresh themad : ℚ) : V3 × V3 :=
  (medianFilter3 glmderivratio,
   map2V3 (fun r m => if patchthresh * themad < |r - m| then m else r) glmderivratio
     (medianFilter3 glmderivratio))

/-- rapidtide.py lines 3383-3385: the per-voxel delay offset is the patched
ratio mapped through the trained calibration function `ratiotodelay`. -/
def delayoffsetV3 (f : ℚ → ℚ) (lims : ℚ × ℚ) (filtered : V3) : V3 :=
  mapIdx3 (fun _ _ _ r => ratiotodelay f lims r) filtered

/-- rapidtide.py line 3397: `lagtimescorrected = lagtimes + delayoffset`. -/
def lagtimescorrectedV3 (lagtimes delayoffset : V3) : V3 :=
  map2V3 (fun l d => l + d) lagtimes delayoffset

/-- **C5.**  During delay-refinement evaluation every voxel whose raw
derivative-coefficient ratio deviates from the 3x3x3 median-filtered ratio map
by more than `patchthresh` times the MAD of the ratio map is replaced by the
median-filtered value (all others keep their raw ratio), and the corrected
lag map is the coarse lag map plus the per-voxel offset obtained by mapping
the patched ratios through the calibration function. -/
theorem delay_refinement_patch_and_correction (g lag : V3) (patchthresh themad : ℚ)
    (f : ℚ → ℚ) (lims : ℚ × ℚ) (i j k : ℕ)
    (hi : i < g.length) (hj : j < (g.getD i []).length)
    (hk : k < ((g.getD i []).getD j []).length)
    (hl1 : lag.length = g.length) (hl2 : (lag.getD i []).length = (g.getD i []).length)
    (hl3 : ((lag.getD i []).getD j []).length = ((g.getD i []).getD j []).length) :
    get3 (filterderivratios g patchthresh themad).2 i j k =
      (if patchthresh * themad <
          |get3 g i j k - get3 (filterderivratios g patchthresh themad).1 i j k| then
        get3 (filterderivratios g patchthresh themad).1 i j k
       else get3 g i j k) ∧
    get3 (lagtimescorrectedV3 lag
        (delayoffsetV3 f lims (filterderivratios g patchthresh themad).2)) i j k =
      get3 lag i j k +
        ratiotodelay f lims (get3 (filterderivratios g patchthresh themad).2 i j k) := by
  have hmi : i < (medianFilter3 g).length := by
    unfold medianFilter3
    rw [length_mapIdx3]
    exact hi
  have hmj : j < ((medianFilter3 g).getD i []).length := by
    rw [shape2_medianFilter3 g i hi]
    exact hj
  have hmk : k < (((medianFilter3 g).getD i []).getD j []).length := by
    rw [shape3_medianFilter3 g i j hi hj]
    exact hk
  have hpatch : get3 (filterderivratios g patchthresh themad).2 i j k =
      (if patchthresh * themad < |get3 g i j k - get3 (medianFilter3 g) i j k| then
        get3 (medianFilter3 g) i j k else get3 g i j k) :=
    get3_map2V3 _ g (medianFilter3 g) i j k hi hmi hj hmj hk hmk
  have hp1 : i < (filterderivratios g patchthresh themad).2.length := by
    show i < (map2V3 _ g (medianFilter3 g)).length
    rw [length_map2V3]
    omega
  have hp2 : j < ((filterderivratios g patchthresh themad).2.getD i []).length := by
    show j < ((map2V3 _ g (medianFilter3 g)).getD i []).length
    rw [getD2_map2V3 _ g (medianFilter3 g) i hi hmi, List.length_zipWith]
    omega
  have hp3 : k < (((filterderivratios g patchthresh themad).2.getD i []).getD j []).length := by
    show k < (((map2V3 _ g (medianFilter3 g)).getD i []).getD j []).length
    rw [getD3_map2V3 _ g (medianFilter3 g) i j hi hmi hj hmj, List.length_zipWith]
    omega
  have ho1 : i < (delayoffsetV3 f lims (filterderivratios g patchthresh themad).2).length := by
    unfold delayoffsetV3
    rw [length_mapIdx3]
    exact hp1
  have ho2 : j < ((delayoffsetV3 f lims
      (filterderivratios g patchthresh themad).2).getD i []).length := by
    unfold delayoffsetV3
    rw [getD2_mapIdx3 _ _ i hp1, length_mapFrom]
    exact hp2
  have ho3 : k < (((delayoffsetV3 f lims
      (filterderivratios g patchthresh themad).2).getD i []).getD j []).length := by
    unfold delayoffsetV3
    rw [getD3_mapIdx3 _ _ i j hp1 hp2, length_mapFrom]
    exact hp3
  refine ⟨hpatch, ?_⟩
  have hcorr : get3 (lagtimescorrectedV3 lag
      (delayoffsetV3 f lims (filterderivratios g patchthresh themad).2)) i j k =
      get3 lag i j k +
        get3 (delayoffsetV3 f lims (filterderivratios g patchthresh themad).2) i j k :=
    get3_map2V3 _ lag _ i j k (by omega) ho1 (by omega) ho2 (by omega) ho3
  rw [hcorr,
    show get3 (delayoffsetV3 f lims (filterderivratios g patchthresh themad).2) i j k =
      ratiotodelay f lims (get3 (filterderivratios g patchthresh themad).2 i j k) from
      get3_mapIdx3 _ _ i j k hp1 hp2 hp3]

/-- A closed instance of C5's hypotheses and conclusion. -/
theorem delay_refinement_patch_and_correction_witness :
    ((0 : ℕ) < ([[[0]]] : V3).length ∧ 0 < (([[[0]]] : V3).getD 0 []).length ∧
     0 < ((([[[0]]] : V3).getD 0 []).getD 0 []).length ∧
     ([[[5]]] : V3).length = ([[[0]]] : V3).length ∧
     (([[[5]]] : V3).getD 0 []).length = (([[[0]]] : V3).getD 0 []).length ∧
     ((([[[5]]] : V3).getD 0 []).getD 0 []).length =
       ((([[[0]]] : V3).getD 0 []).getD 0 []).length) ∧
    (get3 (filterderivratios [[[0]]] 1 1).2 0 0 0 =
      (if (1 : ℚ) * 1 <
          |get3 [[[0]]] 0 0 0 - get3 (filterderivratios [[[0]]] 1 1).1 0 0 0| then
        get3 (filterderivratios [[[0]]] 1 1).1 0 0 0
       else get3 [[[0]]] 0 0 0) ∧
     get3 (lagtimescorrectedV3 [[[5]]]
        (delayoffsetV3 (fun x => x) (0, 0) (filterderivratios [[[0]]] 1 1).2)) 0 0 0 =
      get3 [[[5]]] 0 0 0 +
        ratiotodelay (fun x => x) (0, 0) (get3 (filterderivratios [[[0]]] 1 1).2 0 0 0)) :=
  ⟨⟨by decide, by decide, by decide, by decide, by decide, by decide⟩,
   delay_refinement_patch_and_correction [[[0]]] [[[5]]] 1 1 (fun x => x) (0, 0) 0 0 0
     (by decide) (by decide) (by decide) (by decide) (by decide) (by decide)⟩

end Rapidtide
